import Mathlib

/-!
Verification development for the sb-backend session-processing service.

The definitions below are a shallow embedding of the Python source under
`backend/app/`: pure data is translated to Lean structures, SQL row updates to
explicit state passing, raised exceptions to `Except`, and HTTP handlers to
functions from request data and database state to a response and a new state.
Each definition cites the source file and function it embeds.
-/

set_option maxRecDepth 200000

namespace SB

/-! ## Session status (`app/models/session.py`, `SessionStatus`) -/

inductive SessionStatus where
  | opened
  | pendingProcessing
  | processing
  | processed
  | rawOnly
  | noCredits
  | failed
  deriving DecidableEq, Repr

/-! ## Credit ledger (`app/services/credit_service.py`, `CreditService`)

The `users` table is modelled as a partial map from user id to integer credit
balance; the SQL primary key makes at most one row match any `User.id == uid`
condition, which the map models exactly.
-/

structure UsersTable where
  credits : String → Option Int

namespace CreditService

/-- `CreditService.get_balance`: `SELECT credits WHERE id = uid`, `credits or 0`. -/
def get_balance (tbl : UsersTable) (uid : String) : Int :=
  match tbl.credits uid with
  | some c => c
  | none => 0

/-- `CreditService.has_credits`: returns `credits >= amount`, `False` for a
missing row. -/
def has_credits (tbl : UsersTable) (uid : String) (amount : Int) : Bool :=
  match tbl.credits uid with
  | some c => amount ≤ c
  | none => false

/-- `CreditService.debit`: raises `ValueError` when `amount < 0`; otherwise one
conditional update `credits = credits - amount WHERE id = uid AND credits >=
amount`, then commit; returns `rowcount > 0`. -/
def debit (tbl : UsersTable) (uid : String) (amount : Int) :
    Except String (Bool × UsersTable) :=
  if amount < 0 then
    .error "Cannot debit negative amount"
  else
    match tbl.credits uid with
    | some c =>
      if amount ≤ c then
        .ok (true, ⟨fun x => if x = uid then some (c - amount) else tbl.credits x⟩)
      else
        .ok (false, tbl)
    | none => .ok (false, tbl)

/-- `CreditService.credit`: raises `ValueError` when `amount <= 0`; otherwise
unconditional update `credits = credits + amount WHERE id = uid`, then commit. -/
def credit (tbl : UsersTable) (uid : String) (amount : Int) :
    Except String UsersTable :=
  if amount ≤ 0 then
    .error "Credit amount must be positive"
  else
    match tbl.credits uid with
    | some c =>
      .ok ⟨fun x => if x = uid then some (c + amount) else tbl.credits x⟩
    | none => .ok tbl

end CreditService

/-- One ledger operation against a fixed owner, for stating interleaving
properties of `debit` and `credit`. -/
inductive LedgerOp where
  | debitOp (n : Int)
  | creditOp (n : Int)
  deriving DecidableEq, Repr

/-- Run a list of ledger operations for owner `uid`, threading the table and
accumulating the total credited amount and the total successfully debited
amount.  Returns `none` when some operation raises `ValueError`. -/
def runOps (tbl : UsersTable) (uid : String) :
    List LedgerOp → Option (UsersTable × Int × Int)
  | [] => some (tbl, 0, 0)
  | .debitOp n :: rest =>
    match CreditService.debit tbl uid n with
    | .error _ => none
    | .ok (ok, tbl') =>
      match runOps tbl' uid rest with
      | none => none
      | some (tblF, c, d) => some (tblF, c, d + (if ok then n else 0))
  | .creditOp n :: rest =>
    match CreditService.credit tbl uid n with
    | .error _ => none
    | .ok tbl' =>
      match runOps tbl' uid rest with
      | none => none
      | some (tblF, c, d) => some (tblF, c + n, d)

/-- An operation the finalize flow may issue: debits of a nonnegative amount
and credits of a positive amount (the code raises `ValueError` otherwise). -/
def LedgerOp.valid : LedgerOp → Prop
  | .debitOp n => 0 ≤ n
  | .creditOp n => 0 < n

instance : DecidablePred LedgerOp.valid := by
  intro op
  cases op with
  | debitOp n => exact inferInstanceAs (Decidable (0 ≤ n))
  | creditOp n => exact inferInstanceAs (Decidable (0 < n))

/-! ## Finalize endpoint transaction flow
(`app/api/sessions.py`, `finalize_session`;
`app/services/session_service.py`, `SessionService.finalize_session`)

The rows a with-credit finalize touches are the caller's credit balance, the
session row (status, block count) and the `ai_jobs` table.  `FinDB` is the
committed database; `FinTxn` pairs it with the SQLAlchemy session's pending
view: statements mutate `pending`, `commit` publishes `pending` to
`committed`, `rollback` resets `pending` to `committed`.
-/

structure FinDB where
  credits : Int
  sStatus : SessionStatus
  blocks : Nat
  jobs : Nat
  finalizedAt : Option Nat
  deriving DecidableEq, Repr

structure FinTxn where
  committed : FinDB
  pending : FinDB
  deriving DecidableEq, Repr

def FinTxn.commit (t : FinTxn) : FinTxn := ⟨t.pending, t.pending⟩

def FinTxn.rollback (t : FinTxn) : FinTxn := ⟨t.committed, t.committed⟩

inductive FinalizeOutcome where
  | accepted202
  | badRequest400
  deriving DecidableEq, Repr

/-- `CreditService.debit` as issued by the finalize flow (amount 1 ≥ 0, so the
`ValueError` branch is unreachable): the conditional update mutates the pending
view, then `await db.commit()` inside `debit` publishes it. -/
def debitTxn (t : FinTxn) : Bool × FinTxn :=
  if 1 ≤ t.pending.credits then
    (true, (FinTxn.mk t.committed { t.pending with credits := t.pending.credits - 1 }).commit)
  else
    (false, t.commit)

/-- `SessionService.finalize_session` body: status check, block check, status
write, `finalized_at` stamp, then its own `await db.commit()`.  `none` models a
raised `ValueError`. -/
def finalizeServiceTxn (t : FinTxn) (hasCredits : Bool) (now : Nat) : Option FinTxn :=
  if t.pending.sStatus ≠ .opened then none
  else if t.pending.blocks = 0 then none
  else
    let status := if hasCredits then SessionStatus.pendingProcessing else SessionStatus.noCredits
    (FinTxn.mk t.committed
      { t.pending with sStatus := status, finalizedAt := some now }).commit

/-- `finalize_session` endpoint (`app/api/sessions.py` lines 149–299) for a
session owned by the caller: the with-credit path debits, adds the `AIJob` row,
calls the service, and on any exception rolls back and answers 400; the
without-credit paths finalize to `no_credits`.  Returns the HTTP outcome and
the committed database at the end of the request. -/
def finalizeEndpoint (d : FinDB) (now : Nat) : FinalizeOutcome × FinDB :=
  let t0 : FinTxn := ⟨d, d⟩
  if CreditService.has_credits ⟨fun _ => some d.credits⟩ "u" 1 then
    let (debitSuccess, t1) := debitTxn t0
    if debitSuccess then
      let t2 := FinTxn.mk t1.committed { t1.pending with jobs := t1.pending.jobs + 1 }
      match finalizeServiceTxn t2 true now with
      | some t3 => (.accepted202, t3.commit.committed)
      | none => (.badRequest400, t2.rollback.committed)
    else
      match finalizeServiceTxn t1 false now with
      | some t3 => (.accepted202, t3.commit.committed)
      | none => (.badRequest400, t1.committed)
  else
    match finalizeServiceTxn t0 false now with
    | some t3 => (.accepted202, t3.commit.committed)
    | none => (.badRequest400, t0.committed)

/-! ## Session aggregate (`app/services/session_service.py`, `app/api/sessions.py`) -/

structure SessionRow where
  id : String
  userId : String
  sessionType : String
  status : SessionStatus
  language : Option String
  deriving DecidableEq, Repr

structure BlockRow where
  sessionId : String
  blockType : String
  textContent : Option String
  mediaUrl : Option String
  deriving DecidableEq, Repr

structure SessionsDB where
  sessions : List SessionRow
  blocks : List BlockRow
  deriving DecidableEq, Repr

/-- `SessionService.get_session`: `SELECT ... WHERE id = sid AND user_id = uid`,
`scalar_one_or_none`. -/
def get_session (db : SessionsDB) (sid uid : String) : Option SessionRow :=
  db.sessions.find? (fun s => s.id = sid && s.userId = uid)

/-- `SessionService.create_session` (service layer): inserts a row with status
`OPEN` and commits.  The id is minted by the database default; it is passed in
as `freshId`. -/
def create_session_service (db : SessionsDB) (sessionType uid freshId : String) :
    SessionRow × SessionsDB :=
  let row : SessionRow := ⟨freshId, uid, sessionType, .opened, none⟩
  (row, { db with sessions := db.sessions ++ [row] })

/-- Parameters of `SessionService.create_session` as defined in
`app/services/session_service.py` (`db`, `session_type`, `user_id`). -/
def createSessionServiceParams : List String := ["db", "session_type", "user_id"]

/-- Keyword arguments the endpoint `create_session` in `app/api/sessions.py`
passes to `SessionService.create_session` (`db` is positional). -/
def createSessionCallKwargs : List String := ["session_type", "user_id", "language"]

/-- Python call binding: a call succeeds only when every keyword argument names
a parameter of the callee; otherwise the interpreter raises `TypeError`. -/
def pyCallBinds (params kwargs : List String) : Bool :=
  kwargs.all (fun k => params.contains k)

inductive CreateOutcome where
  | created201
  | serverError500
  deriving DecidableEq, Repr

/-- `POST /sessions` endpoint (`app/api/sessions.py`, `create_session`): calls
the service with keyword arguments `session_type`, `user_id`, `language`; a
`TypeError` from the call is caught by `except Exception` and answered with
HTTP 500. -/
def create_session_endpoint (db : SessionsDB) (uid sessionType : String)
    (freshId : String) : CreateOutcome × SessionsDB :=
  if pyCallBinds createSessionServiceParams createSessionCallKwargs then
    let (_, db') := create_session_service db sessionType uid freshId
    (.created201, db')
  else
    (.serverError500, db)

inductive AddBlockError where
  | notFoundOrAccessDenied
  | stateConflict
  deriving DecidableEq, Repr

/-- `SessionService.add_block`: looks the session up owner-scoped, raises
`ValueError` (`not found or access denied`) when missing, raises `ValueError`
(`is not open`) when the status differs from `OPEN`, otherwise inserts the
block and commits. -/
def add_block (db : SessionsDB) (sid uid : String) (blockType : String)
    (textContent mediaUrl : Option String) :
    Except AddBlockError BlockRow × SessionsDB :=
  match get_session db sid uid with
  | none => (.error .notFoundOrAccessDenied, db)
  | some s =>
    if s.status ≠ .opened then
      (.error .stateConflict, db)
    else
      let block : BlockRow := ⟨sid, blockType, textContent, mediaUrl⟩
      (.ok block, { db with blocks := db.blocks ++ [block] })

/-! ## Text chunker (`app/utils/text_chunker.py`, `chunk_text`)

Python strings are modelled as `List Char`; `str.rfind(sub, start, end)`,
`str.strip()` and slicing are given explicit models, and the `while` loop is
given a fuel parameter: `none` means the fuel ran out before the loop exited.
-/

def isPySpace (c : Char) : Bool :=
  c = ' ' || c = '\n' || c = '\t' || c = '\r'

/-- Python `str.strip()`: remove leading and trailing whitespace. -/
def pyStrip (s : List Char) : List Char :=
  ((s.dropWhile isPySpace).reverse.dropWhile isPySpace).reverse

/-- Python slice `s[a:b]` (with `0 ≤ a ≤ b`). -/
def pySlice (s : List Char) (a b : Nat) : List Char :=
  (s.take b).drop a

/-- Helper for `pyRfind`: scan the suffixes of `s`, keeping the last index `i`
with `lo ≤ i`, `i + pat.length ≤ hi` and `pat` occurring at `i`. -/
def rfindGo (pat : List Char) (lo hi : Nat) : List Char → Nat → Option Nat → Option Nat
  | [], _, best => best
  | s@(_ :: tail), i, best =>
    let best' :=
      if lo ≤ i && i + pat.length ≤ hi && pat.isPrefixOf s then some i else best
    rfindGo pat lo hi tail (i + 1) best'

/-- Python `s.rfind(pat, lo, hi)`: the greatest index of an occurrence of `pat`
lying entirely inside `s[lo:hi]`, `none` for Python's `-1`. -/
def pyRfind (s pat : List Char) (lo hi : Nat) : Option Nat :=
  rfindGo pat lo hi s 0 none

/-- The sentence-terminator patterns tried, in order, by `chunk_text`. -/
def punctPatterns : List (List Char) :=
  [['.', ' '], ['.', '\n'], ['!', ' '], ['!', '\n'], ['?', ' '], ['?', '\n']]

/-- The `for punct in [...]` loop of `chunk_text`: the first pattern with an
`rfind` hit sets `break_point = last_punct + len(punct)` and breaks. -/
def firstPunctHit : List (List Char) → List Char → Nat → Nat → Option Nat
  | [], _, _, _ => none
  | pat :: rest, text, lo, hi =>
    match pyRfind text pat lo hi with
    | some p => some (p + pat.length)
    | none => firstPunctHit rest text lo hi

/-- One-to-many iterations of the `while start < len(text)` loop of
`chunk_text`, with fuel.  Mirrors the body statement by statement, including
the `break_point == end` re-checks after each search and the final
`start = break_point - overlap` clamped at 0 (`Nat` subtraction). -/
def chunkLoop (text : List Char) (cs ov : Nat) :
    Nat → Nat → List (List Char) → Option (List (List Char))
  | 0, _, _ => none
  | fuel + 1, start, acc =>
    if start < text.length then
      let e := start + cs
      if text.length ≤ e then
        let chunk := pyStrip (pySlice text start text.length)
        some (if chunk.isEmpty then acc else acc ++ [chunk])
      else
        let bpP : Nat :=
          match firstPunctHit punctPatterns text start e with
          | some bp => bp
          | none => e
        let bpN : Nat :=
          if bpP = e then
            match pyRfind text ['\n'] start e with
            | some p => p + 1
            | none => e
          else bpP
        let bpS : Nat :=
          if bpN = e then
            match pyRfind text [' '] start e with
            | some p => p + 1
            | none => e
          else bpN
        let chunk := pyStrip (pySlice text start bpS)
        let acc' := if chunk.isEmpty then acc else acc ++ [chunk]
        chunkLoop text cs ov fuel (bpS - ov) acc'
    else
      some acc

/-- `chunk_text(text, chunk_size, overlap)`: empty or whitespace-only text
gives `[]`; text no longer than `chunk_size` gives one stripped chunk;
otherwise the `while` loop runs, here bounded by `fuel`. -/
def chunk_text (fuel : Nat) (text : List Char) (cs ov : Nat) :
    Option (List (List Char)) :=
  if text.isEmpty || (pyStrip text).isEmpty then some []
  else if text.length ≤ cs then some [pyStrip text]
  else chunkLoop text cs ov fuel 0 []

/-- A text on which the `chunk_text` loop never advances: the only cut point
the window `[0, 1000)` offers is the sentence terminator at index 1, so
`break_point = 3` and `start = break_point - overlap = 0` again. -/
def chunkerBadText : List Char := 'a' :: '.' :: ' ' :: List.replicate 1100 'b'

/-! ## Media registry and presign/commit
(`app/storage/presign.py`, `PresignService`; `app/api/uploads.py`) -/

inductive MediaStatus where
  | pending
  | uploaded
  deriving DecidableEq, Repr

inductive MediaKind where
  | audio
  | image
  deriving DecidableEq, Repr

structure MediaRow where
  id : String
  sessionId : String
  kind : MediaKind
  objectKey : String
  contentType : String
  sizeBytes : Option Int
  status : MediaStatus
  deriving DecidableEq, Repr

/-- `ALLOWED_CONTENT_TYPES` from `app/storage/presign.py`. -/
def allowedContentTypes : MediaKind → List String
  | .audio => ["audio/m4a", "audio/mp4", "audio/mpeg", "audio/mp3",
               "audio/wav", "audio/webm", "audio/ogg", "audio/aac"]
  | .image => ["image/jpeg", "image/jpg", "image/png",
               "image/webp", "image/heic", "image/heif"]

/-- Python `str.lower()` on the ASCII MIME strings the service compares. -/
def pyLower (s : String) : String := ⟨s.data.map Char.toLower⟩

/-- `PresignService.validate_content_type`. -/
def validate_content_type (kind : MediaKind) (contentType : String) : Bool :=
  (allowedContentTypes kind).contains (pyLower contentType)

/-- `PresignService.create_presigned_upload`, database effect: after content
type validation, insert a media row with status `pending`.  The minted id and
object key are passed in (`uuid.uuid4()` in the source); the presigned URL
itself is an external-store artifact and carries no database state. -/
def create_presigned_upload (rows : List MediaRow) (sessionId freshId objectKey : String)
    (kind : MediaKind) (contentType : String) :
    Option String × List MediaRow :=
  if validate_content_type kind contentType then
    let row : MediaRow := ⟨freshId, sessionId, kind, objectKey, contentType, none, .pending⟩
    (some freshId, rows ++ [row])
  else
    (none, rows)

/-- First-match row update, the effect of mutating the ORM object returned by
`scalar_one_or_none` (the primary key makes at most one row match). -/
def updateMediaRow : List MediaRow → String → (MediaRow → MediaRow) → List MediaRow
  | [], _, _ => []
  | r :: rest, mid, f =>
    if r.id = mid then f r :: rest else r :: updateMediaRow rest mid f

/-- `SELECT ... WHERE MediaFile.id == media_id`. -/
def findMedia (rows : List MediaRow) (mid : String) : Option MediaRow :=
  rows.find? (fun r => r.id = mid)

/-- The row mutation `commit_upload` performs: set status `uploaded` and
record the size when one is given (`if size_bytes is not None`). -/
def commitUpdate (sizeBytes : Option Int) (r : MediaRow) : MediaRow :=
  { r with
    status := .uploaded
    sizeBytes := match sizeBytes with | some s => some s | none => r.sizeBytes }

/-- `PresignService.commit_upload(db, media_id, user_id, size_bytes)`: missing
row fails; an already `uploaded` row returns success unchanged (idempotent);
otherwise the status becomes `uploaded` and the size is recorded when given.
The `user_id` parameter is declared but never read by the body. -/
def commit_upload (rows : List MediaRow) (mediaId : String) ( userId : String)
    (sizeBytes : Option Int) : (Bool × Option String) × List MediaRow :=
  match findMedia rows mediaId with
  | none => ((false, some "Media file not found"), rows)
  | some m =>
    if m.status = .uploaded then
      ((true, none), rows)
    else
      ((true, none), updateMediaRow rows mediaId (commitUpdate sizeBytes))

inductive CommitOutcome where
  | ok200
  | badRequest400
  deriving DecidableEq, Repr

/-- `POST /uploads/commit` (`app/api/uploads.py`, `commit_upload`): passes the
authenticated caller's id straight to the service and maps failure to 400. -/
def commit_upload_endpoint (rows : List MediaRow) (mediaId : String) ( userId : String)
    (sizeBytes : Option Int) : CommitOutcome × List MediaRow :=
  let ((success, _), rows') := commit_upload rows mediaId userId sizeBytes
  if success then (.ok200, rows') else (.badRequest400, rows')

/-! ## Payment reconciler
(`app/api/webhooks.py`, `stripe_webhook`; `app/services/stripe_service.py`) -/

inductive PaymentStatus where
  | pending
  | completed
  | failed
  | refunded
  deriving DecidableEq, Repr

structure PaymentRow where
  id : String
  userId : String
  checkoutId : Option String
  intentId : Option String
  creditsAmount : Int
  status : PaymentStatus
  completedAt : Option Nat
  deriving DecidableEq, Repr

structure PayDB where
  payments : List PaymentRow
  users : UsersTable

/-- `SELECT ... WHERE Payment.stripe_payment_intent_id == intent`. -/
def findByIntent (ps : List PaymentRow) (intent : String) : Option PaymentRow :=
  ps.find? (fun p => p.intentId = some intent)

/-- `SELECT ... WHERE Payment.stripe_checkout_session_id == checkout`. -/
def findByCheckout (ps : List PaymentRow) (checkout : String) : Option PaymentRow :=
  ps.find? (fun p => p.checkoutId = some checkout)

/-- First-match payment-row update by intent id (ORM object mutation). -/
def updateByIntent : List PaymentRow → String → (PaymentRow → PaymentRow) → List PaymentRow
  | [], _, _ => []
  | p :: rest, intent, f =>
    if p.intentId = some intent then f p :: rest else p :: updateByIntent rest intent f

/-- First-match payment-row update by checkout id (ORM object mutation). -/
def updateByCheckout : List PaymentRow → String → (PaymentRow → PaymentRow) → List PaymentRow
  | [], _, _ => []
  | p :: rest, checkout, f =>
    if p.checkoutId = some checkout then f p :: rest else p :: updateByCheckout rest checkout f

/-- The row mutation the intent-variant webhook performs: status `completed`,
`completed_at` stamped. -/
def completeIntentUpdate (now : Nat) (q : PaymentRow) : PaymentRow :=
  { q with status := .completed, completedAt := some now }

/-- The row mutation the checkout-variant webhook performs: additionally
records the event's intent id when one is present
(`if stripe_payment_intent_id`). -/
def completeCheckoutUpdate (intent : Option String) (now : Nat) (q : PaymentRow) :
    PaymentRow :=
  { q with
    status := .completed
    completedAt := some now
    intentId := match intent with | some i => some i | none => q.intentId }

/-- `StripeService.mark_payment_completed_by_intent`: `None` when the row is
missing or already `completed`; otherwise sets status `completed` and stamps
`completed_at`, leaving the commit to the caller. -/
def mark_payment_completed_by_intent (ps : List PaymentRow) (intent : String) (now : Nat) :
    Option PaymentRow × List PaymentRow :=
  match findByIntent ps intent with
  | none => (none, ps)
  | some p =>
    if p.status = .completed then
      (none, ps)
    else
      (some (completeIntentUpdate now p), updateByIntent ps intent (completeIntentUpdate now))

/-- `StripeService.mark_payment_completed` (checkout path): like the intent
variant, additionally recording the intent id when the event carries one. -/
def mark_payment_completed (ps : List PaymentRow) (checkout : String)
    (intent : Option String) (now : Nat) : Option PaymentRow × List PaymentRow :=
  match findByCheckout ps checkout with
  | none => (none, ps)
  | some p =>
    if p.status = .completed then
      (none, ps)
    else
      (some (completeCheckoutUpdate intent now p),
        updateByCheckout ps checkout (completeCheckoutUpdate intent now))

/-- A signed Stripe event the webhook handles, with the metadata it reads
(`user_id`, integer `credits`) and the external handle it matches by. -/
inductive StripeEvent where
  | intentSucceeded (intentId userId : String) (credits : Int)
  | checkoutCompleted (checkoutId : String) (intentId : Option String)
      (userId : String) (credits : Int)
  deriving DecidableEq, Repr

inductive WebhookResult where
  | ignoredUserNotFound
  | alreadyProcessed
  | success
  | errorCredit
  deriving DecidableEq, Repr

/-- `stripe_webhook` body for `payment_intent.succeeded` and
`checkout.session.completed` after signature verification and metadata
parsing: check the user exists, mark the payment completed (no commit), then
`CreditService.credit` and a commit publishing both writes; a `ValueError`
from `credit` rolls the payment write back. -/
def stripe_webhook_deliver (db : PayDB) (ev : StripeEvent) (now : Nat) :
    WebhookResult × PayDB :=
  match ev with
  | .intentSucceeded intentId userId credits =>
    match db.users.credits userId with
    | none => (.ignoredUserNotFound, db)
    | some _ =>
      match mark_payment_completed_by_intent db.payments intentId now with
      | (none, _) => (.alreadyProcessed, db)
      | (some _, ps') =>
        match CreditService.credit db.users userId credits with
        | .ok users' => (.success, ⟨ps', users'⟩)
        | .error _ => (.errorCredit, db)
  | .checkoutCompleted checkoutId intentId userId credits =>
    match db.users.credits userId with
    | none => (.ignoredUserNotFound, db)
    | some _ =>
      match mark_payment_completed db.payments checkoutId intentId now with
      | (none, _) => (.alreadyProcessed, db)
      | (some _, ps') =>
        match CreditService.credit db.users userId credits with
        | .ok users' => (.success, ⟨ps', users'⟩)
        | .error _ => (.errorCredit, db)

/-- Deliver the same event `n` times in a row, collecting the responses. -/
def deliverN (ev : StripeEvent) (now : Nat) : Nat → PayDB → PayDB × List WebhookResult
  | 0, db => (db, [])
  | n + 1, db =>
    let (r, db') := stripe_webhook_deliver db ev now
    let (dbF, rs) := deliverN ev now n db'
    (dbF, r :: rs)

/-! ## Semantic search
(`app/api/search.py`, `semantic_search`;
`app/repositories/embedding_repository.py`, `EmbeddingRepository.find_similar`)

The pgvector cosine distance of each stored embedding to the query vector is
abstracted as a rational-valued oracle `dist`; the ownership property holds
for every oracle.
-/

structure EmbeddingRow where
  id : Nat
  sessionId : String
  blockId : Option String
  provider : String
  text : String
  deriving DecidableEq, Repr

structure SearchDB where
  sessions : List (String × String)
  embeddings : List EmbeddingRow

/-- The session ids owned by `uid`:
`SELECT Session.id WHERE Session.user_id == uid`. -/
def userSessionIds (db : SearchDB) (uid : String) : List String :=
  (db.sessions.filter (fun s => s.2 = uid)).map (fun s => s.1)

/-- `EmbeddingRepository.find_similar` (list-of-ids caller): rows are kept when
`session_id = ANY(session_ids)` (the condition is dropped when the Python list
is empty, i.e. falsy), the optional provider matches, and the cosine distance
is below `1 - threshold`; kept rows are ordered by ascending distance and
truncated to `limit`. -/
def find_similar (dist : EmbeddingRow → ℚ) (rows : List EmbeddingRow)
    (limit : Nat) (threshold : ℚ) (sessionIds : List String)
    (provider : Option String) : List EmbeddingRow :=
  let passes := fun (r : EmbeddingRow) =>
    (if sessionIds.isEmpty then true else sessionIds.contains r.sessionId) &&
    (match provider with | some p => r.provider == p | none => true) &&
    decide (dist r < 1 - threshold)
  ((rows.filter passes).mergeSort (fun a b => decide (dist a ≤ dist b))).take limit

structure SearchHit where
  sessionId : String
  blockId : Option String
  text : String
  similarity : ℚ
  provider : String
  deriving DecidableEq, Repr

/-- `POST /search/semantic` (`app/api/search.py`): resolve the caller's session
ids, return empty when there are none, otherwise query `find_similar` scoped
to those ids and convert each row's distance to a clamped similarity. -/
def semantic_search (dist : EmbeddingRow → ℚ) (db : SearchDB) (uid : String)
    (limit : Nat) (threshold : ℚ) : List SearchHit :=
  let ids := userSessionIds db uid
  if ids.isEmpty then []
  else
    (find_similar dist db.embeddings limit threshold ids none).map fun e =>
      ⟨e.sessionId, e.blockId, e.text, max 0 (min 1 (1 - dist e)), e.provider⟩

/-! ## Pipeline stage C tail (`app/tasks/generate_summary.py`,
`_generate_summary_async`, lines 277–306)

After the embedding step, the task generates the summary and the title, each
under its own `try`, then marks the job completed and the session processed
and commits.  Provider calls are abstracted as `Except` results.
-/

inductive AIJobStatus where
  | pending
  | completed
  | failed
  deriving DecidableEq, Repr

structure StageCState where
  aiSummary : Option String
  suggestedTitle : Option String
  jobStatus : AIJobStatus
  jobCompletedAt : Option Nat
  sessionStatus : SessionStatus
  processedAt : Option Nat
  deriving DecidableEq, Repr

/-- Python `"Falha ao gerar resumo: " + str(e)`, the failure marker stored as
the summary when the provider raises. -/
def summaryFailureMarker (e : String) : String :=
  "Falha ao gerar resumo: " ++ e

/-- Python fallback title: first 50 characters plus `"..."` when the combined
text is longer than 50, the text itself otherwise, `"Nota de voz"` when it is
empty. -/
def fallbackTitle (allText : String) : String :=
  if allText = "" then "Nota de voz"
  else if 50 < allText.length then (allText.take 50) ++ "..."
  else allText

/-- Stage C tail: store the summary or its failure marker, store the title or
its fallback, mark the job completed with `completed_at`, set the session
`processed` and stamp `processed_at`, then commit. -/
def stageCFinish (summaryRes : Except String String) (titleRes : Except String String)
    (allText : String) (now : Nat) (st : StageCState) : StageCState :=
  let st1 :=
    match summaryRes with
    | .ok s => { st with aiSummary := some s }
    | .error e => { st with aiSummary := some (summaryFailureMarker e) }
  let st2 :=
    match titleRes with
    | .ok t => if allText = "" then st1 else { st1 with suggestedTitle := some t }
    | .error _ => { st1 with suggestedTitle := some (fallbackTitle allText) }
  { st2 with
    jobStatus := .completed
    jobCompletedAt := some now
    sessionStatus := .processed
    processedAt := some now }

/-! # Theorems -/

/-! ## C1: the with-credit finalize path is not one transaction -/

/-- C1: the claim says the credit debit, the AIJob insert and the
session-status write commit as one transaction and roll back together on any
error.  The code commits the debit inside `CreditService.debit` before the
other two writes, so the error raised by `SessionService.finalize_session` for
a blockless session rolls back only the job and the status: the request is
answered 400 while the committed database has the credit gone, the session
still `open`, and no AIJob row — exactly the state the claim rules out. -/
theorem finalizeEndpoint_debit_commits_separately :
    finalizeEndpoint ⟨1, .opened, 0, 0, none⟩ 0 =
      (.badRequest400, ⟨0, .opened, 0, 0, none⟩) ∧
    ((finalizeEndpoint ⟨1, .opened, 0, 0, none⟩ 0).2.credits = 0 ∧
      (finalizeEndpoint ⟨1, .opened, 0, 0, none⟩ 0).2.sStatus ≠ .pendingProcessing ∧
      (finalizeEndpoint ⟨1, .opened, 0, 0, none⟩ 0).2.jobs = 0) := by
  decide

/-! ## C3: `POST /sessions` always answers 500 -/

/-- C3: the claim says session creation succeeds for every authenticated owner
and `POST /sessions` answers 201.  The endpoint passes the keyword argument
`language` to `SessionService.create_session`, whose parameters are only
`db`, `session_type`, `user_id`; the call therefore raises `TypeError`, the
`except Exception` arm answers 500, and no session row is created — for every
request. -/
theorem create_session_endpoint_always_500 (db : SessionsDB)
    (uid sessionType freshId : String) :
    create_session_endpoint db uid sessionType freshId = (.serverError500, db) := by
  have h : pyCallBinds createSessionServiceParams createSessionCallKwargs = false := by
    decide
  simp [create_session_endpoint, h]

/-! ## C4: `chunk_text` does not terminate on every input -/

/-- One iteration of the loop on `chunkerBadText` with the pipeline's
parameters (`chunk_size=1000`, `overlap=100`) returns to `start = 0`,
appending the chunk `"a."`. -/
theorem chunkLoop_chunkerBadText_step (fuel : Nat) (acc : List (List Char)) :
    chunkLoop chunkerBadText 1000 100 (fuel + 1) 0 acc =
      chunkLoop chunkerBadText 1000 100 fuel 0 (acc ++ [['a', '.']]) := rfl

theorem chunkLoop_chunkerBadText_none (fuel : Nat) :
    ∀ acc, chunkLoop chunkerBadText 1000 100 fuel 0 acc = none := by
  induction fuel with
  | zero => intro acc; rfl
  | succ n ih => intro acc; rw [chunkLoop_chunkerBadText_step]; exact ih _

/-- C4: the claim says the chunking function terminates on every input.  On
`chunkerBadText` (`"a. "` followed by 1100 `'b'`s) the `while` loop of
`chunk_text(text, chunk_size=1000, overlap=100)` — the parameters
`_generate_summary_async` calls it with — finds its only cut point at index 1,
sets `break_point = 3`, and `start = break_point - overlap` falls back to 0:
the loop never advances, so no amount of fuel makes the function return. -/
theorem chunk_text_nontermination (fuel : Nat) :
    chunk_text fuel chunkerBadText 1000 100 = none := by
  have h1 : (chunkerBadText.isEmpty || (pyStrip chunkerBadText).isEmpty) = false := by
    decide
  have h2 : ¬ (chunkerBadText.length ≤ 1000) := by decide
  simp only [chunk_text, h1, Bool.false_eq_true, if_false, h2,
    chunkLoop_chunkerBadText_none]

/-! ## C8: summary failure still yields a processed session -/

/-- C8: when the summary provider raises in stage C, the marker
`"Falha ao gerar resumo: " + str(e)` is stored as the session's summary and the
task proceeds to mark the job completed and the session `processed`, stamping
`processed_at` and `completed_at`. -/
theorem stageC_summary_failure_processed (e : String)
    (titleRes : Except String String) (allText : String) (now : Nat)
    (st : StageCState) :
    (stageCFinish (.error e) titleRes allText now st).aiSummary =
        some (summaryFailureMarker e) ∧
    (stageCFinish (.error e) titleRes allText now st).sessionStatus = .processed ∧
    (stageCFinish (.error e) titleRes allText now st).processedAt = some now ∧
    (stageCFinish (.error e) titleRes allText now st).jobStatus = .completed ∧
    (stageCFinish (.error e) titleRes allText now st).jobCompletedAt = some now := by
  cases titleRes with
  | ok t =>
    by_cases h : allText = "" <;> simp [stageCFinish, h]
  | error t => simp [stageCFinish]

/-! ## C2: the conditional debit -/

/-- Successful debit, explicit form. -/
theorem debit_of_le (tbl : UsersTable) (uid : String) (b n : Int)
    (hrow : tbl.credits uid = some b) (hn : 0 ≤ n) (hle : n ≤ b) :
    CreditService.debit tbl uid n =
      .ok (true, ⟨fun x => if x = uid then some (b - n) else tbl.credits x⟩) := by
  simp [CreditService.debit, hrow, hle, not_lt.mpr hn]

/-- Failed debit, explicit form. -/
theorem debit_of_lt (tbl : UsersTable) (uid : String) (b n : Int)
    (hrow : tbl.credits uid = some b) (hn : 0 ≤ n) (hlt : b < n) :
    CreditService.debit tbl uid n = .ok (false, tbl) := by
  simp [CreditService.debit, hrow, not_le.mpr hlt, not_lt.mpr hn]

/-- Credit, explicit form. -/
theorem credit_of_pos (tbl : UsersTable) (uid : String) (b n : Int)
    (hrow : tbl.credits uid = some b) (hn : 0 < n) :
    CreditService.credit tbl uid n =
      .ok ⟨fun x => if x = uid then some (b + n) else tbl.credits x⟩ := by
  simp [CreditService.credit, hrow, not_le.mpr hn]

/-- Any interleaving of valid debits and credits keeps the balance equal to
`initial + Σcredits − Σsuccessful_debits` and never negative. -/
theorem runOps_spec (uid : String) (ops : List LedgerOp) :
    ∀ (tbl : UsersTable) (b : Int),
      tbl.credits uid = some b → 0 ≤ b → (∀ op ∈ ops, op.valid) →
      ∃ tblF c d, runOps tbl uid ops = some (tblF, c, d) ∧
        tblF.credits uid = some (b + c - d) ∧ 0 ≤ b + c - d := by
  induction ops with
  | nil =>
    intro tbl b hrow hb _
    exact ⟨tbl, 0, 0, rfl, by simpa using hrow, by simpa using hb⟩
  | cons op rest ih =>
    intro tbl b hrow hb hvalid
    have hrest : ∀ op ∈ rest, op.valid := fun o ho => hvalid o (List.mem_cons_of_mem _ ho)
    cases op with
    | debitOp n =>
      have hn : 0 ≤ n := hvalid _ (List.mem_cons_self _ _)
      by_cases hle : n ≤ b
      · have hrow1 :
            (⟨fun x => if x = uid then some (b - n) else tbl.credits x⟩ :
              UsersTable).credits uid = some (b - n) := by simp
        obtain ⟨tblF, c, d, hrun, hbal, hpos⟩ :=
          ih _ (b - n) hrow1 (by omega) hrest
        refine ⟨tblF, c, d + n, ?_, ?_, by omega⟩
        · simp [runOps, debit_of_le tbl uid b n hrow hn hle, hrun]
        · rw [hbal]; congr 1; ring
      · obtain ⟨tblF, c, d, hrun, hbal, hpos⟩ := ih tbl b hrow hb hrest
        refine ⟨tblF, c, d + 0, ?_, by simpa using hbal, by simpa using hpos⟩
        simp [runOps, debit_of_lt tbl uid b n hrow hn (by omega), hrun]
    | creditOp n =>
      have hn : 0 < n := hvalid _ (List.mem_cons_self _ _)
      have hrow1 :
          (⟨fun x => if x = uid then some (b + n) else tbl.credits x⟩ :
            UsersTable).credits uid = some (b + n) := by simp
      obtain ⟨tblF, c, d, hrun, hbal, hpos⟩ := ih _ (b + n) hrow1 (by omega) hrest
      refine ⟨tblF, c + n, d, ?_, ?_, by omega⟩
      · simp [runOps, credit_of_pos tbl uid b n hrow hn, hrun]
      · rw [hbal]; congr 1; ring

/-- C2: `debit(owner, n)` with `n ≥ 0` performs the single row-conditional
update and reports whether it affected the row: it succeeds exactly when
`n ≤ balance`, on success the balance drops by exactly `n` (still
nonnegative, other rows untouched), on failure the table is unchanged;
`debit(owner, 0)` is a no-op returning `true`; and across any interleaving of
valid debits and credits the balance equals
`initial + Σcredits − Σsuccessful_debits` and is never negative. -/
theorem creditService_debit_spec (tbl : UsersTable) (uid : String) (b n : Int)
    (hrow : tbl.credits uid = some b) (hb : 0 ≤ b) (hn : 0 ≤ n) :
    (∃ ok tbl', CreditService.debit tbl uid n = .ok (ok, tbl') ∧
      (ok = true ↔ n ≤ b) ∧
      (ok = true → tbl'.credits uid = some (b - n) ∧ 0 ≤ b - n ∧
        ∀ v, v ≠ uid → tbl'.credits v = tbl.credits v) ∧
      (ok = false → tbl' = tbl)) ∧
    CreditService.debit tbl uid 0 = .ok (true, tbl) ∧
    (∀ ops : List LedgerOp, (∀ op ∈ ops, op.valid) →
      ∃ tblF c d, runOps tbl uid ops = some (tblF, c, d) ∧
        tblF.credits uid = some (b + c - d) ∧ 0 ≤ b + c - d) := by
  refine ⟨?_, ?_, fun ops hops => runOps_spec uid ops tbl b hrow hb hops⟩
  · by_cases hle : n ≤ b
    · refine ⟨true, _, debit_of_le tbl uid b n hrow hn hle, by simp [hle], ?_, by simp⟩
      intro _
      refine ⟨by simp, by omega, fun v hv => ?_⟩
      simp [hv]
    · exact ⟨false, tbl, debit_of_lt tbl uid b n hrow hn (by omega),
        by simp [hle], by simp, fun _ => rfl⟩
  · have h0 := debit_of_le tbl uid b 0 hrow le_rfl hb
    rw [h0]
    have htbl : (⟨fun x => if x = uid then some (b - 0) else tbl.credits x⟩ :
        UsersTable) = tbl := by
      cases tbl with
      | mk f =>
        congr 1
        funext x
        by_cases hx : x = uid
        · subst hx; simpa using hrow.symm
        · simp [hx]
    rw [htbl]

/-- Witness for C2 at a concrete one-user table with balance 5 and `n = 2`. -/
theorem creditService_debit_spec_witness :
    (UsersTable.mk fun _ => some 5).credits "u" = some 5 ∧ (0 : Int) ≤ 5 ∧
      (0 : Int) ≤ 2 ∧
    ((∃ ok tbl', CreditService.debit (UsersTable.mk fun _ => some 5) "u" 2 =
          .ok (ok, tbl') ∧
        (ok = true ↔ (2 : Int) ≤ 5) ∧
        (ok = true → tbl'.credits "u" = some (5 - 2) ∧ (0 : Int) ≤ 5 - 2 ∧
          ∀ v, v ≠ "u" → tbl'.credits v = (UsersTable.mk fun _ => some 5).credits v) ∧
        (ok = false → tbl' = UsersTable.mk fun _ => some 5)) ∧
      CreditService.debit (UsersTable.mk fun _ => some 5) "u" 0 =
        .ok (true, UsersTable.mk fun _ => some 5) ∧
      (∀ ops : List LedgerOp, (∀ op ∈ ops, op.valid) →
        ∃ tblF c d, runOps (UsersTable.mk fun _ => some 5) "u" ops = some (tblF, c, d) ∧
          tblF.credits "u" = some (5 + c - d) ∧ 0 ≤ 5 + c - d)) :=
  ⟨rfl, by norm_num, by norm_num,
    creditService_debit_spec (UsersTable.mk fun _ => some 5) "u" 5 2 rfl
      (by norm_num) (by norm_num)⟩

/-! ## C7: `add_block` succeeds exactly on an owned open session -/

/-- C7: `add_block` succeeds iff the session exists, belongs to the caller and
is `open`; a missing or foreign session gives `not_found_or_access_denied`, a
non-open one gives `state_conflict`, and in both failure cases the database is
unchanged (no block appended); on success exactly the new block is appended. -/
theorem add_block_spec (db : SessionsDB) (sid uid blockType : String)
    (tc mu : Option String) :
    ((∃ blk, (add_block db sid uid blockType tc mu).1 = .ok blk) ↔
      ∃ s, get_session db sid uid = some s ∧ s.status = .opened) ∧
    (get_session db sid uid = none →
      add_block db sid uid blockType tc mu = (.error .notFoundOrAccessDenied, db)) ∧
    (∀ s, get_session db sid uid = some s → s.status ≠ .opened →
      add_block db sid uid blockType tc mu = (.error .stateConflict, db)) ∧
    (∀ s, get_session db sid uid = some s → s.status = .opened →
      add_block db sid uid blockType tc mu =
        (.ok ⟨sid, blockType, tc, mu⟩,
          { db with blocks := db.blocks ++ [⟨sid, blockType, tc, mu⟩] })) := by
  refine ⟨?_, ?_, ?_, ?_⟩
  · constructor
    · rintro ⟨blk, hblk⟩
      cases hs : get_session db sid uid with
      | none => rw [add_block, hs] at hblk; cases hblk
      | some s =>
        refine ⟨s, rfl, ?_⟩
        by_cases hst : s.status = SessionStatus.opened
        · exact hst
        · rw [add_block, hs] at hblk
          simp [hst] at hblk
    · rintro ⟨s, hs, hst⟩
      refine ⟨⟨sid, blockType, tc, mu⟩, ?_⟩
      rw [add_block, hs]
      simp [hst]
  · intro hs; rw [add_block, hs]
  · intro s hs hst
    rw [add_block, hs]
    simp [hst]
  · intro s hs hst
    rw [add_block, hs]
    simp [hst]

/-- Witness for C7: a database holding one open session owned by `"alice"`. -/
theorem add_block_spec_witness :
    ((∃ blk, (add_block ⟨[⟨"s1", "alice", "voice", .opened, none⟩], []⟩
        "s1" "alice" "text" (some "hi") none).1 = .ok blk) ↔
      ∃ s, get_session ⟨[⟨"s1", "alice", "voice", .opened, none⟩], []⟩
          "s1" "alice" = some s ∧ s.status = .opened) ∧
    (get_session ⟨[⟨"s1", "alice", "voice", .opened, none⟩], []⟩ "s1" "alice" = none →
      add_block ⟨[⟨"s1", "alice", "voice", .opened, none⟩], []⟩
        "s1" "alice" "text" (some "hi") none =
        (.error .notFoundOrAccessDenied, ⟨[⟨"s1", "alice", "voice", .opened, none⟩], []⟩)) ∧
    (∀ s, get_session ⟨[⟨"s1", "alice", "voice", .opened, none⟩], []⟩ "s1" "alice" = some s →
      s.status ≠ .opened →
      add_block ⟨[⟨"s1", "alice", "voice", .opened, none⟩], []⟩
        "s1" "alice" "text" (some "hi") none =
        (.error .stateConflict, ⟨[⟨"s1", "alice", "voice", .opened, none⟩], []⟩)) ∧
    (∀ s, get_session ⟨[⟨"s1", "alice", "voice", .opened, none⟩], []⟩ "s1" "alice" = some s →
      s.status = .opened →
      add_block ⟨[⟨"s1", "alice", "voice", .opened, none⟩], []⟩
        "s1" "alice" "text" (some "hi") none =
        (.ok ⟨"s1", "text", some "hi", none⟩,
          { sessions := [⟨"s1", "alice", "voice", .opened, none⟩],
            blocks := [] ++ [⟨"s1", "text", some "hi", none⟩] })) :=
  add_block_spec ⟨[⟨"s1", "alice", "voice", .opened, none⟩], []⟩
    "s1" "alice" "text" (some "hi") none

/-! ## C9/C10: presign–commit protocol -/

/-- `findMedia` on a cons whose head matches. -/
theorem findMedia_cons_pos (rest : List MediaRow) (r : MediaRow) (mid : String)
    (h : r.id = mid) : findMedia (r :: rest) mid = some r := by
  simp only [findMedia]
  exact List.find?_cons_of_pos rest (by simp [h])

/-- `findMedia` on a cons whose head does not match. -/
theorem findMedia_cons_neg (rest : List MediaRow) (r : MediaRow) (mid : String)
    (h : ¬ r.id = mid) : findMedia (r :: rest) mid = findMedia rest mid := by
  simp only [findMedia]
  exact List.find?_cons_of_neg rest (by simp [h])

/-- `updateMediaRow` with an id-preserving update commutes with `findMedia`. -/
theorem findMedia_updateMediaRow (rows : List MediaRow) (mid : String)
    (f : MediaRow → MediaRow) (hf : ∀ r, (f r).id = r.id) :
    findMedia (updateMediaRow rows mid f) mid = (findMedia rows mid).map f := by
  induction rows with
  | nil => rfl
  | cons r rest ih =>
    by_cases h : r.id = mid
    · rw [updateMediaRow, if_pos h, findMedia_cons_pos rest r mid h,
        findMedia_cons_pos _ (f r) mid (by rw [hf, h]), Option.map_some']
    · rw [updateMediaRow, if_neg h, findMedia_cons_neg rest r mid h,
        findMedia_cons_neg _ r mid h, ih]

/-- `findMedia` over an appended fresh row. -/
theorem findMedia_append_fresh (rows : List MediaRow) (row : MediaRow)
    (hfresh : findMedia rows row.id = none) :
    findMedia (rows ++ [row]) row.id = some row := by
  induction rows with
  | nil => exact findMedia_cons_pos [] row row.id rfl
  | cons r rest ih =>
    by_cases h : r.id = row.id
    · rw [findMedia_cons_pos rest r row.id h] at hfresh
      cases hfresh
    · rw [findMedia_cons_neg rest r row.id h] at hfresh
      rw [List.cons_append, findMedia_cons_neg _ r row.id h]
      exact ih hfresh

/-- Committing an already-`uploaded` row is a successful no-op. -/
theorem commit_upload_already_uploaded (rows : List MediaRow)
    (mid uid : String) (sz : Option Int) (m : MediaRow)
    (hm : findMedia rows mid = some m) (hup : m.status = .uploaded) :
    commit_upload rows mid uid sz = ((true, none), rows) := by
  simp [commit_upload, hm, hup]

/-- `commitUpdate` preserves the row id. -/
theorem commitUpdate_id (sz : Option Int) (r : MediaRow) :
    (commitUpdate sz r).id = r.id := rfl

/-- Committing a `pending` row updates exactly the first matching row. -/
theorem commit_upload_pending (rows : List MediaRow)
    (mid uid : String) (sz : Option Int) (m : MediaRow)
    (hm : findMedia rows mid = some m) (hpend : m.status = .pending) :
    commit_upload rows mid uid sz =
      ((true, none), updateMediaRow rows mid (commitUpdate sz)) := by
  simp [commit_upload, hm, hpend]

/-- `updateMediaRow` changes only the first row matching `mid`, which
`findMedia` returns. -/
theorem updateMediaRow_forall₂ (rows : List MediaRow) (mid : String)
    (f : MediaRow → MediaRow) (m : MediaRow) (hm : findMedia rows mid = some m) :
    List.Forall₂ (fun r r' => r' = r ∨ (r = m ∧ r' = f r)) rows
      (updateMediaRow rows mid f) := by
  induction rows with
  | nil => simp [findMedia] at hm
  | cons r rest ih =>
    by_cases h : r.id = mid
    · rw [findMedia_cons_pos rest r mid h] at hm
      injection hm with h'
      simp only [updateMediaRow, if_pos h]
      exact List.Forall₂.cons (Or.inr ⟨h'.symm ▸ rfl, rfl⟩)
        (List.forall₂_same.mpr fun x _ => Or.inl rfl)
    · rw [findMedia_cons_neg rest r mid h] at hm
      simp only [updateMediaRow, if_neg h]
      exact List.Forall₂.cons (Or.inl rfl) (ih hm)

/-- Any `commit_upload` moves rows at most from `pending` to `uploaded`, never
backwards, preserving id and session. -/
theorem commit_upload_transitions (rows : List MediaRow) (mid uid : String)
    (sz : Option Int) :
    List.Forall₂ (fun r r' => r' = r ∨
        (r.status = .pending ∧ r'.status = .uploaded ∧
          r'.id = r.id ∧ r'.sessionId = r.sessionId))
      rows (commit_upload rows mid uid sz).2 := by
  cases hm : findMedia rows mid with
  | none =>
    simp only [commit_upload, hm]
    exact List.forall₂_same.mpr fun x _ => Or.inl rfl
  | some m =>
    cases hst : m.status with
    | uploaded =>
      rw [commit_upload_already_uploaded rows mid uid sz m hm hst]
      exact List.forall₂_same.mpr fun x _ => Or.inl rfl
    | pending =>
      rw [commit_upload_pending rows mid uid sz m hm hst]
      refine (updateMediaRow_forall₂ rows mid (commitUpdate sz) m hm).imp
        fun r r' hrr => ?_
      rcases hrr with h | ⟨hrm, hrf⟩
      · exact Or.inl h
      · exact Or.inr ⟨hrm ▸ hst, by rw [hrf]; rfl, by rw [hrf]; rfl, by rw [hrf]; rfl⟩

/-- C9: after `presign` inserts a `pending` row and the client PUT succeeds,
the first `commit` transitions the row to `uploaded` recording the size; the
second `commit` returns success with no state change.  In general a media
row's status only ever moves `pending → uploaded`, and committing an
already-`uploaded` row changes neither its status nor its recorded size (the
whole table is returned unchanged). -/
theorem presign_commit_commit_spec (rows : List MediaRow)
    (sessionId freshId objectKey contentType uid uid' : String) (kind : MediaKind)
    (sz sz' : Option Int)
    (hvalid : validate_content_type kind contentType = true)
    (hfresh : findMedia rows freshId = none) :
    ∃ rows0 rows1,
      create_presigned_upload rows sessionId freshId objectKey kind contentType =
        (some freshId, rows0) ∧
      commit_upload rows0 freshId uid sz = ((true, none), rows1) ∧
      commit_upload rows1 freshId uid' sz' = ((true, none), rows1) ∧
      findMedia rows1 freshId =
        some ⟨freshId, sessionId, kind, objectKey, contentType, sz, .uploaded⟩ ∧
      (∀ rows2 mid u2 s2 m2, findMedia rows2 mid = some m2 → m2.status = .uploaded →
        commit_upload rows2 mid u2 s2 = ((true, none), rows2)) ∧
      (∀ rows2 mid u2 s2,
        List.Forall₂ (fun r r' => r' = r ∨
            (r.status = .pending ∧ r'.status = .uploaded ∧
              r'.id = r.id ∧ r'.sessionId = r.sessionId))
          rows2 (commit_upload rows2 mid u2 s2).2) := by
  set row0 : MediaRow := ⟨freshId, sessionId, kind, objectKey, contentType, none, .pending⟩
  have hins : create_presigned_upload rows sessionId freshId objectKey kind contentType =
      (some freshId, rows ++ [row0]) := by
    simp [create_presigned_upload, hvalid, row0]
  have hfind0 : findMedia (rows ++ [row0]) freshId = some row0 :=
    findMedia_append_fresh rows row0 hfresh
  have hc1 : commit_upload (rows ++ [row0]) freshId uid sz =
      ((true, none), updateMediaRow (rows ++ [row0]) freshId (commitUpdate sz)) :=
    commit_upload_pending _ _ _ _ row0 hfind0 rfl
  have hfind1 :
      findMedia (updateMediaRow (rows ++ [row0]) freshId (commitUpdate sz)) freshId =
        some (commitUpdate sz row0) := by
    rw [findMedia_updateMediaRow (rows ++ [row0]) freshId (commitUpdate sz)
      (commitUpdate_id sz), hfind0, Option.map_some']
  have hfrow : commitUpdate sz row0 =
      ⟨freshId, sessionId, kind, objectKey, contentType, sz, .uploaded⟩ := by
    cases sz <;> simp [commitUpdate, row0]
  refine ⟨rows ++ [row0], updateMediaRow (rows ++ [row0]) freshId (commitUpdate sz),
    hins, hc1, ?_, by rw [hfind1, hfrow], ?_, ?_⟩
  · exact commit_upload_already_uploaded _ _ _ _ (commitUpdate sz row0) hfind1 rfl
  · exact fun rows2 mid u2 s2 m2 hm2 hu2 =>
      commit_upload_already_uploaded rows2 mid u2 s2 m2 hm2 hu2
  · exact fun rows2 mid u2 s2 => commit_upload_transitions rows2 mid u2 s2

/-- Witness for C9: presign and double-commit of an audio upload into an empty
registry. -/
theorem presign_commit_commit_spec_witness :
    validate_content_type .audio "audio/m4a" = true ∧
    findMedia [] "m1" = none ∧
    (∃ rows0 rows1,
      create_presigned_upload [] "s1" "m1" "k1" .audio "audio/m4a" =
        (some "m1", rows0) ∧
      commit_upload rows0 "m1" "alice" (some 42) = ((true, none), rows1) ∧
      commit_upload rows1 "m1" "bob" (some 99) = ((true, none), rows1) ∧
      findMedia rows1 "m1" =
        some ⟨"m1", "s1", .audio, "k1", "audio/m4a", some 42, .uploaded⟩ ∧
      (∀ rows2 mid u2 s2 m2, findMedia rows2 mid = some m2 → m2.status = .uploaded →
        commit_upload rows2 mid u2 s2 = ((true, none), rows2)) ∧
      (∀ rows2 mid u2 s2,
        List.Forall₂ (fun r r' => r' = r ∨
            (r.status = .pending ∧ r'.status = .uploaded ∧
              r'.id = r.id ∧ r'.sessionId = r.sessionId))
          rows2 (commit_upload rows2 mid u2 s2).2)) :=
  ⟨by decide, rfl,
    presign_commit_commit_spec [] "s1" "m1" "k1" "audio/m4a" "alice" "bob" .audio
      (some 42) (some 99) (by decide) rfl⟩

/-- C10: the result and effect of the upload commit depend only on the media
row: the `user_id` parameter is never consulted, so any two authenticated
callers get identical responses and state changes, at the service layer and at
the `POST /uploads/commit` endpoint alike; in particular a caller other than
the owner of the media's session transitions a pending row to `uploaded`. -/
theorem commit_upload_caller_independent (rows : List MediaRow)
    (mid u1 u2 : String) (sz : Option Int) :
    commit_upload rows mid u1 sz = commit_upload rows mid u2 sz ∧
    commit_upload_endpoint rows mid u1 sz = commit_upload_endpoint rows mid u2 sz ∧
    (∀ m, findMedia rows mid = some m → m.status = .pending →
      (commit_upload rows mid u1 sz).1 = (true, none) ∧
      (findMedia (commit_upload rows mid u1 sz).2 mid).map (fun r => r.status) =
        some .uploaded) := by
  refine ⟨rfl, rfl, fun m hm hpend => ?_⟩
  have hc := commit_upload_pending rows mid u1 sz m hm hpend
  refine ⟨by rw [hc], ?_⟩
  rw [hc]
  have hu := findMedia_updateMediaRow rows mid (commitUpdate sz) (commitUpdate_id sz)
  simp only [hu, hm, Option.map_some']
  rfl

/-- Witness for C10: a pending media row in a session owned by `"alice"`,
committed by `"mallory"` and by `"alice"` with identical outcomes. -/
theorem commit_upload_caller_independent_witness :
    commit_upload [⟨"m1", "s1", .audio, "k1", "audio/m4a", none, .pending⟩]
        "m1" "mallory" (some 7) =
      commit_upload [⟨"m1", "s1", .audio, "k1", "audio/m4a", none, .pending⟩]
        "m1" "alice" (some 7) ∧
    commit_upload_endpoint [⟨"m1", "s1", .audio, "k1", "audio/m4a", none, .pending⟩]
        "m1" "mallory" (some 7) =
      commit_upload_endpoint [⟨"m1", "s1", .audio, "k1", "audio/m4a", none, .pending⟩]
        "m1" "alice" (some 7) ∧
    (∀ m, findMedia [⟨"m1", "s1", .audio, "k1", "audio/m4a", none, .pending⟩]
        "m1" = some m → m.status = .pending →
      (commit_upload [⟨"m1", "s1", .audio, "k1", "audio/m4a", none, .pending⟩]
          "m1" "mallory" (some 7)).1 = (true, none) ∧
      (findMedia (commit_upload [⟨"m1", "s1", .audio, "k1", "audio/m4a", none, .pending⟩]
            "m1" "mallory" (some 7)).2 "m1").map (fun r => r.status) =
        some .uploaded) :=
  commit_upload_caller_independent
    [⟨"m1", "s1", .audio, "k1", "audio/m4a", none, .pending⟩] "m1" "mallory" "alice"
    (some 7)

/-! ## C5: webhook replay grants credits exactly once -/

/-- `findByIntent` on a cons whose head matches. -/
theorem findByIntent_cons_pos (rest : List PaymentRow) (p : PaymentRow) (i : String)
    (h : p.intentId = some i) : findByIntent (p :: rest) i = some p := by
  simp only [findByIntent]
  exact List.find?_cons_of_pos rest (by simp [h])

/-- `findByIntent` on a cons whose head does not match. -/
theorem findByIntent_cons_neg (rest : List PaymentRow) (p : PaymentRow) (i : String)
    (h : ¬ p.intentId = some i) : findByIntent (p :: rest) i = findByIntent rest i := by
  simp only [findByIntent]
  exact List.find?_cons_of_neg rest (by simp [h])

/-- `findByCheckout` on a cons whose head matches. -/
theorem findByCheckout_cons_pos (rest : List PaymentRow) (p : PaymentRow) (k : String)
    (h : p.checkoutId = some k) : findByCheckout (p :: rest) k = some p := by
  simp only [findByCheckout]
  exact List.find?_cons_of_pos rest (by simp [h])

/-- `findByCheckout` on a cons whose head does not match. -/
theorem findByCheckout_cons_neg (rest : List PaymentRow) (p : PaymentRow) (k : String)
    (h : ¬ p.checkoutId = some k) :
    findByCheckout (p :: rest) k = findByCheckout rest k := by
  simp only [findByCheckout]
  exact List.find?_cons_of_neg rest (by simp [h])

/-- `updateByIntent` with an intent-preserving update commutes with
`findByIntent`. -/
theorem findByIntent_updateByIntent (ps : List PaymentRow) (i : String)
    (f : PaymentRow → PaymentRow) (hf : ∀ p, (f p).intentId = p.intentId) :
    findByIntent (updateByIntent ps i f) i = (findByIntent ps i).map f := by
  induction ps with
  | nil => rfl
  | cons p rest ih =>
    by_cases h : p.intentId = some i
    · rw [updateByIntent, if_pos h, findByIntent_cons_pos rest p i h,
        findByIntent_cons_pos _ (f p) i (by rw [hf, h]), Option.map_some']
    · rw [updateByIntent, if_neg h, findByIntent_cons_neg rest p i h,
        findByIntent_cons_neg _ p i h, ih]

/-- `updateByCheckout` with a checkout-preserving update commutes with
`findByCheckout`. -/
theorem findByCheckout_updateByCheckout (ps : List PaymentRow) (k : String)
    (f : PaymentRow → PaymentRow) (hf : ∀ p, (f p).checkoutId = p.checkoutId) :
    findByCheckout (updateByCheckout ps k f) k = (findByCheckout ps k).map f := by
  induction ps with
  | nil => rfl
  | cons p rest ih =>
    by_cases h : p.checkoutId = some k
    · rw [updateByCheckout, if_pos h, findByCheckout_cons_pos rest p k h,
        findByCheckout_cons_pos _ (f p) k (by rw [hf, h]), Option.map_some']
    · rw [updateByCheckout, if_neg h, findByCheckout_cons_neg rest p k h,
        findByCheckout_cons_neg _ p k h, ih]

/-- First delivery of `payment_intent.succeeded` for a pending payment:
payment completed, user credited. -/
theorem deliver_intent_first (ps : List PaymentRow) (users : UsersTable)
    (i u : String) (c b : Int) (now : Nat) (p : PaymentRow)
    (hp : findByIntent ps i = some p) (hpend : p.status = .pending)
    (hu : users.credits u = some b) (hc : 0 < c) :
    stripe_webhook_deliver ⟨ps, users⟩ (.intentSucceeded i u c) now =
      (.success,
        ⟨updateByIntent ps i (completeIntentUpdate now),
          ⟨fun x => if x = u then some (b + c) else users.credits x⟩⟩) := by
  simp [stripe_webhook_deliver, hu, mark_payment_completed_by_intent, hp, hpend,
    credit_of_pos users u b c hu hc]

/-- Replayed delivery of `payment_intent.succeeded` for a completed payment:
`already_processed`, no state change. -/
theorem deliver_intent_completed (ps : List PaymentRow) (users : UsersTable)
    (i u : String) (c b : Int) (now : Nat) (p : PaymentRow)
    (hp : findByIntent ps i = some p) (hcomp : p.status = .completed)
    (hu : users.credits u = some b) :
    stripe_webhook_deliver ⟨ps, users⟩ (.intentSucceeded i u c) now =
      (.alreadyProcessed, ⟨ps, users⟩) := by
  simp [stripe_webhook_deliver, hu, mark_payment_completed_by_intent, hp, hcomp]

/-- First delivery of `checkout.session.completed` for a pending payment. -/
theorem deliver_checkout_first (ps : List PaymentRow) (users : UsersTable)
    (k u : String) (iopt : Option String) (c b : Int) (now : Nat) (p : PaymentRow)
    (hp : findByCheckout ps k = some p) (hpend : p.status = .pending)
    (hu : users.credits u = some b) (hc : 0 < c) :
    stripe_webhook_deliver ⟨ps, users⟩ (.checkoutCompleted k iopt u c) now =
      (.success,
        ⟨updateByCheckout ps k (completeCheckoutUpdate iopt now),
          ⟨fun x => if x = u then some (b + c) else users.credits x⟩⟩) := by
  simp [stripe_webhook_deliver, hu, mark_payment_completed, hp, hpend,
    credit_of_pos users u b c hu hc]

/-- Replayed delivery of `checkout.session.completed` for a completed payment. -/
theorem deliver_checkout_completed (ps : List PaymentRow) (users : UsersTable)
    (k u : String) (iopt : Option String) (c b : Int) (now : Nat) (p : PaymentRow)
    (hp : findByCheckout ps k = some p) (hcomp : p.status = .completed)
    (hu : users.credits u = some b) :
    stripe_webhook_deliver ⟨ps, users⟩ (.checkoutCompleted k iopt u c) now =
      (.alreadyProcessed, ⟨ps, users⟩) := by
  simp [stripe_webhook_deliver, hu, mark_payment_completed, hp, hcomp]

/-- Delivering an event in a state it does not change keeps the state fixed. -/
theorem deliverN_fixed (ev : StripeEvent) (now : Nat) (db : PayDB)
    (h : stripe_webhook_deliver db ev now = (.alreadyProcessed, db)) :
    ∀ n, deliverN ev now n db = (db, List.replicate n .alreadyProcessed) := by
  intro n
  induction n with
  | zero => rfl
  | succ m ih => simp [deliverN, h, ih, List.replicate_succ]

/-- C5: for a user that exists and a positive credit amount, delivering the
same signed `payment_intent.succeeded` (or `checkout.session.completed`) event
`n + 1` times for a pending payment yields exactly one `success` — the payment
row moved to `completed` with `completed_at` stamped and the balance credited
once — followed by `n` `already_processed` responses that change neither the
payment rows nor any balance (the state after every delivery equals the state
after the first). -/
theorem stripe_webhook_replay (ps : List PaymentRow) (users : UsersTable)
    (u : String) (c b : Int) (now : Nat) (n : Nat)
    (hu : users.credits u = some b) (hc : 0 < c) :
    (∀ i p, findByIntent ps i = some p → p.status = .pending →
      deliverN (.intentSucceeded i u c) now (n + 1) ⟨ps, users⟩ =
        (⟨updateByIntent ps i (completeIntentUpdate now),
          ⟨fun x => if x = u then some (b + c) else users.credits x⟩⟩,
          .success :: List.replicate n .alreadyProcessed)) ∧
    (∀ k iopt p, findByCheckout ps k = some p → p.status = .pending →
      deliverN (.checkoutCompleted k iopt u c) now (n + 1) ⟨ps, users⟩ =
        (⟨updateByCheckout ps k (completeCheckoutUpdate iopt now),
          ⟨fun x => if x = u then some (b + c) else users.credits x⟩⟩,
          .success :: List.replicate n .alreadyProcessed)) := by
  constructor
  · intro i p hp hpend
    have h1 := deliver_intent_first ps users i u c b now p hp hpend hu hc
    have hfind1 : findByIntent (updateByIntent ps i (completeIntentUpdate now)) i =
        some (completeIntentUpdate now p) := by
      rw [findByIntent_updateByIntent ps i (completeIntentUpdate now) (fun q => rfl),
        hp, Option.map_some']
    have hfix := deliver_intent_completed _
      ⟨fun x => if x = u then some (b + c) else users.credits x⟩ i u c (b + c) now _
      hfind1 rfl (by simp)
    simp only [deliverN, h1, deliverN_fixed _ now _ hfix n]
  · intro k iopt p hp hpend
    have h1 := deliver_checkout_first ps users k u iopt c b now p hp hpend hu hc
    have hfind1 : findByCheckout (updateByCheckout ps k (completeCheckoutUpdate iopt now)) k =
        some (completeCheckoutUpdate iopt now p) := by
      rw [findByCheckout_updateByCheckout ps k (completeCheckoutUpdate iopt now)
        (fun q => rfl), hp, Option.map_some']
    have hfix := deliver_checkout_completed _
      ⟨fun x => if x = u then some (b + c) else users.credits x⟩ k u iopt c (b + c) now _
      hfind1 rfl (by simp)
    simp only [deliverN, h1, deliverN_fixed _ now _ hfix n]

/-- Witness for C5: a 50-credit pending payment delivered three times. -/
theorem stripe_webhook_replay_witness :
    (UsersTable.mk fun _ => some 0).credits "u1" = some 0 ∧ (0 : Int) < 50 ∧
    ((∀ i p, findByIntent [⟨"p1", "u1", some "ck1", some "in1", 50, .pending, none⟩] i =
          some p → p.status = .pending →
      deliverN (.intentSucceeded i "u1" 50) 5 (2 + 1)
          ⟨[⟨"p1", "u1", some "ck1", some "in1", 50, .pending, none⟩],
            UsersTable.mk fun _ => some 0⟩ =
        (⟨updateByIntent [⟨"p1", "u1", some "ck1", some "in1", 50, .pending, none⟩] i
            (completeIntentUpdate 5),
          ⟨fun x => if x = "u1" then some (0 + 50)
            else (UsersTable.mk fun _ => some 0).credits x⟩⟩,
          .success :: List.replicate 2 .alreadyProcessed)) ∧
    (∀ k iopt p, findByCheckout [⟨"p1", "u1", some "ck1", some "in1", 50, .pending, none⟩] k =
          some p → p.status = .pending →
      deliverN (.checkoutCompleted k iopt "u1" 50) 5 (2 + 1)
          ⟨[⟨"p1", "u1", some "ck1", some "in1", 50, .pending, none⟩],
            UsersTable.mk fun _ => some 0⟩ =
        (⟨updateByCheckout [⟨"p1", "u1", some "ck1", some "in1", 50, .pending, none⟩] k
            (completeCheckoutUpdate iopt 5),
          ⟨fun x => if x = "u1" then some (0 + 50)
            else (UsersTable.mk fun _ => some 0).credits x⟩⟩,
          .success :: List.replicate 2 .alreadyProcessed))) :=
  ⟨rfl, by norm_num,
    stripe_webhook_replay [⟨"p1", "u1", some "ck1", some "in1", 50, .pending, none⟩]
      (UsersTable.mk fun _ => some 0) "u1" 50 0 5 2 rfl (by norm_num)⟩

/-! ## C6: semantic search is scoped to the caller's sessions -/

/-- C6: every hit returned by `semantic_search` carries a `session_id` that
belongs to a session row owned by the search principal, for every distance
oracle; and a principal owning no sessions receives the empty result. -/
theorem semantic_search_owner_scoped (dist : EmbeddingRow → ℚ) (db : SearchDB)
    (uid : String) (limit : Nat) (threshold : ℚ) :
    (∀ hit ∈ semantic_search dist db uid limit threshold,
      ∃ s ∈ db.sessions, s.1 = hit.sessionId ∧ s.2 = uid) ∧
    (userSessionIds db uid = [] → semantic_search dist db uid limit threshold = []) := by
  constructor
  · intro hit hmem
    by_cases hids : (userSessionIds db uid).isEmpty
    · rw [semantic_search, if_pos hids] at hmem
      cases hmem
    · rw [semantic_search, if_neg hids] at hmem
      obtain ⟨e, he, hconv⟩ := List.mem_map.mp hmem
      have he1 : e ∈ (db.embeddings.filter fun (r : EmbeddingRow) =>
          (if (userSessionIds db uid).isEmpty then true
            else (userSessionIds db uid).contains r.sessionId) &&
          (match (none : Option String) with
            | some p => r.provider == p | none => true) &&
          decide (dist r < 1 - threshold)) := by
        have htake := List.mem_of_mem_take he
        exact (List.mergeSort_perm _ _).mem_iff.mp htake
      have hpass := List.of_mem_filter he1
      rw [if_neg hids] at hpass
      have hcontains : (userSessionIds db uid).contains e.sessionId = true := by
        simp only [Bool.and_eq_true] at hpass
        exact hpass.1.1
      have hsess : e.sessionId ∈ userSessionIds db uid := by
        simpa using hcontains
      obtain ⟨s, hs, hsid⟩ := List.mem_map.mp hsess
      have hs' := List.mem_filter.mp hs
      refine ⟨s, hs'.1, ?_, by simpa using hs'.2⟩
      rw [hsid, ← hconv]
  · intro h
    rw [semantic_search, if_pos (by rw [h]; rfl)]

/-- Witness for C6: a database with one session owned by `"alice"` and one
indexed chunk, searched by `"alice"` under the constant-distance oracle. -/
theorem semantic_search_owner_scoped_witness :
    (∀ hit ∈ semantic_search (fun _ => 0)
        ⟨[("s1", "alice")], [⟨1, "s1", none, "openai", "quarterly planning"⟩]⟩
        "alice" 10 (1 / 2),
      ∃ s ∈ [("s1", "alice")], s.1 = hit.sessionId ∧ s.2 = "alice") ∧
    (userSessionIds ⟨[("s1", "alice")], [⟨1, "s1", none, "openai", "quarterly planning"⟩]⟩
        "alice" = [] →
      semantic_search (fun _ => 0)
        ⟨[("s1", "alice")], [⟨1, "s1", none, "openai", "quarterly planning"⟩]⟩
        "alice" 10 (1 / 2) = []) :=
  semantic_search_owner_scoped (fun _ => 0)
    ⟨[("s1", "alice")], [⟨1, "s1", none, "openai", "quarterly planning"⟩]⟩
    "alice" 10 (1 / 2)

end SB
